import Mathlib

/-!
Shallow embedding of `estereo.py`, a WAV stereo/mono utility.

Files are modelled as `List Nat` of byte values; a file object's state is a
position into that list.  `struct.pack`/`struct.unpack` of little-endian
fields are modelled byte by byte; fallible packing/unpacking returns
`Except String`, with the exact exception messages of the source as the
error strings.  Python `//` on possibly-negative ints is `Int.fdiv`
(floor division) and Python `%` is `Int.emod`.
-/

namespace Estereo

/-- Read `n` bytes of file `f` starting at position `pos`
(Python `f.seek(pos); f.read(n)`): returns fewer bytes near end of file. -/
def readBytes (f : List Nat) (pos n : Nat) : List Nat := (f.drop pos).take n

/-- Little-endian decoding of a 2-byte unsigned field (`struct.unpack` of an H field). -/
def leU16 : List Nat → Nat
  | [b0, b1] => b0 + 256 * b1
  | _ => 0

/-- Little-endian decoding of a 4-byte unsigned field (`struct.unpack` of an I field). -/
def leU32 : List Nat → Nat
  | [b0, b1, b2, b3] => b0 + 256 * b1 + 65536 * b2 + 16777216 * b3
  | _ => 0

/-- Little-endian encoding of a 2-byte unsigned field (`struct.pack` of an H field). -/
def u16le (n : Nat) : List Nat := [n % 256, n / 256 % 256]

/-- Little-endian encoding of a 4-byte unsigned field (`struct.pack` of an I field). -/
def u32le (n : Nat) : List Nat := [n % 256, n / 256 % 256, n / 65536 % 256, n / 16777216 % 256]

/-- The dictionary built by `leer_cabecera`: every field starts as `None`. -/
structure InfoWav where
  despl_datos : Option Nat
  tam_datos : Option Nat
  formato : Option Nat
  canales : Option Nat
  frec_muestreo : Option Nat
  bits_muestra : Option Nat
deriving DecidableEq, Repr

/-- The initial dictionary of `leer_cabecera`, all fields `None`. -/
def infoInicial : InfoWav := ⟨none, none, none, none, none, none⟩

/-- `crear_cabecera(canales, frec_muestreo, bits_muestra, tam_datos)`: the three
`struct.pack` calls, concatenated.  The first pack uses native byte order and
alignment, which on the little-endian host coincides with the explicit
little-endian layout.  Tag bytes: RIFF = [82,73,70,70], WAVE = [87,65,86,69],
fmt+space = [102,109,116,32], data = [100,97,116,97]. -/
def crear_cabecera (canales frec_muestreo bits_muestra tam_datos : Nat) : List Nat :=
  let tasa_bytes := frec_muestreo * canales * bits_muestra / 8
  let bloque := canales * bits_muestra / 8
  let tam_riff := 36 + tam_datos
  ([82, 73, 70, 70] ++ u32le tam_riff ++ [87, 65, 86, 69]) ++
  ([102, 109, 116, 32] ++ u32le 16 ++ u16le 1 ++ u16le canales ++ u32le frec_muestreo ++
    u32le tasa_bytes ++ u16le bloque ++ u16le bits_muestra) ++
  ([100, 97, 116, 97] ++ u32le tam_datos)

/-- The `while True` sub-chunk loop of `leer_cabecera`, with an explicit fuel
parameter.  Each continuing iteration advances the file position by at least
8 bytes within the file, so `f.length + 1` fuel is always sufficient
(`leerBucle_fuel_eq` below proves fuel-independence past that bound). -/
def leerBucle : Nat → List Nat → Nat → InfoWav → Except String InfoWav
  | 0, _, _, info => .ok info
  | fuel + 1, f, pos, info =>
    let cab := readBytes f pos 8
    if cab.length < 8 then .ok info
    else
      let ident := cab.take 4
      let tam := leU32 (cab.drop 4)
      if ident = [102, 109, 116, 32] then
        let datos_fmt := readBytes f (pos + 8) tam
        if (datos_fmt.take 16).length < 16 then
          .error "struct.error: unpack requires a buffer of 16 bytes"
        else
          leerBucle fuel f (pos + 8 + datos_fmt.length)
            { info with
              formato := some (leU16 (datos_fmt.take 2)),
              canales := some (leU16 ((datos_fmt.drop 2).take 2)),
              frec_muestreo := some (leU32 ((datos_fmt.drop 4).take 4)),
              bits_muestra := some (leU16 ((datos_fmt.drop 14).take 2)) }
      else if ident = [100, 97, 116, 97] then
        leerBucle fuel f (pos + 8 + tam) { info with despl_datos := some (pos + 8), tam_datos := some tam }
      else
        leerBucle fuel f (pos + 8 + tam) info

/-- The sub-chunk loop run with its canonical (always sufficient) fuel. -/
def leerChunks (f : List Nat) (pos : Nat) (info : InfoWav) : Except String InfoWav :=
  leerBucle (f.length + 1) f pos info

/-- `leer_cabecera(fichero)`: seek to 0, read the 12-byte RIFF/WAVE triple,
then scan sub-chunks, then validate format code and bit depth. -/
def leer_cabecera (fichero : List Nat) : Except String InfoWav :=
  let cab0 := readBytes fichero 0 12
  if cab0.length < 12 then .error "struct.error: unpack requires a buffer of 12 bytes"
  else if cab0.take 4 ≠ [82, 73, 70, 70] ∨ (cab0.drop 8).take 4 ≠ [87, 65, 86, 69] then
    .error "El archivo no es un WAVE válido"
  else
    match leerChunks fichero 12 infoInicial with
    | .error e => .error e
    | .ok info =>
      if info.formato ≠ some 1 ∨ (info.bits_muestra ≠ some 16 ∧ info.bits_muestra ≠ some 32) then
        .error "Formato de audio no compatible"
      else .ok info

example :
    leer_cabecera (crear_cabecera 2 8000 16 4 ++ [1, 2, 3, 4]) =
      .ok ⟨some 44, some 4, some 1, some 2, some 8000, some 16⟩ := by rfl

/-- Reinterpretation of a 16-bit unsigned value as signed two's-complement:
`struct.unpack` of an h field applied to `struct.pack` of an H field. -/
def sInt16 (n : Nat) : Int :=
  let m := n % 65536
  if m < 32768 then (m : Int) else (m : Int) - 65536

/-- `struct.unpack` of a run of h fields: consecutive 2-byte groups, little-endian, signed. -/
def decodeH : List Nat → List Int
  | b0 :: b1 :: rest => sInt16 (b0 + 256 * b1) :: decodeH rest
  | _ => []

/-- `struct.unpack` of a run of I fields: consecutive 4-byte groups, little-endian, unsigned. -/
def decodeI : List Nat → List Nat
  | b0 :: b1 :: b2 :: b3 :: rest => (b0 + 256 * b1 + 65536 * b2 + 16777216 * b3) :: decodeI rest
  | _ => []

/-- Byte image of `struct.pack` of a run of h fields: each sample as its
two's-complement 16-bit pattern, little-endian. -/
def bytesH : List Int → List Nat
  | [] => []
  | x :: rest => u16le (x % 65536).toNat ++ bytesH rest

/-- Byte image of `struct.pack` of a run of I fields, little-endian. -/
def bytesI : List Nat → List Nat
  | [] => []
  | x :: rest => u32le x ++ bytesI rest

/-- `struct.pack` of `count` h fields: checks the argument count, then that
every value fits the signed 16-bit range, then emits the bytes. -/
def packHn (count : Nat) (xs : List Int) : Except String (List Nat) :=
  if xs.length ≠ count then .error "struct.error: pack expected a different number of items"
  else if ∀ x ∈ xs, -32768 ≤ x ∧ x ≤ 32767 then .ok (bytesH xs)
  else .error "struct.error: short format requires -32768 <= number <= 32767"

/-- `struct.pack` of `count` I fields: checks the argument count, then the
unsigned 32-bit range, then emits the bytes. -/
def packIn (count : Nat) (xs : List Nat) : Except String (List Nat) :=
  if xs.length ≠ count then .error "struct.error: pack expected a different number of items"
  else if ∀ x ∈ xs, x < 4294967296 then .ok (bytesI xs)
  else .error "struct.error: argument out of range"

/-- `struct.unpack` of `count` h fields: the buffer must have exactly the format size. -/
def unpackH (count : Nat) (bs : List Nat) : Except String (List Int) :=
  if bs.length = 2 * count then .ok (decodeH bs)
  else .error "struct.error: unpack requires a buffer of the exact size"

/-- `struct.unpack` of `count` I fields: the buffer must have exactly the format size. -/
def unpackI (count : Nat) (bs : List Nat) : Except String (List Nat) :=
  if bs.length = 4 * count then .ok (decodeI bs)
  else .error "struct.error: unpack requires a buffer of the exact size"

mutual

/-- Python slice `xs[::2]`. -/
def evens : List α → List α
  | [] => []
  | x :: xs => x :: odds xs

/-- Python slice `xs[1::2]`. -/
def odds : List α → List α
  | [] => []
  | _ :: xs => evens xs

end

/-- Python `sum(zip(izq, der), ())` flattening, and the interleaved sample
order of a stereo payload: one pair of samples per frame. -/
def flattenPairs : List (Int × Int) → List Int
  | [] => []
  | (a, b) :: rest => a :: b :: flattenPairs rest

/-- `estereo2mono(fic_estereo, fic_salida, canal)`: the returned byte list is
what the function writes to `fic_salida`. -/
def estereo2mono (fic_estereo : List Nat) (canal : Nat) : Except String (List Nat) :=
  match leer_cabecera fic_estereo with
  | .error e => .error e
  | .ok info =>
    if info.canales ≠ some 2 then .error "El archivo no es estéreo"
    else
      match info.despl_datos, info.tam_datos with
      | some despl, some tam =>
        let datos := readBytes fic_estereo despl tam
        match unpackH (tam / 2) datos with
        | .error e => .error e
        | .ok muestras =>
          let pares := (evens muestras).zip (odds muestras)
          match (match canal with
                 | 0 => Except.ok (pares.map Prod.fst)
                 | 1 => Except.ok (pares.map Prod.snd)
                 | 2 => Except.ok (pares.map fun (p : Int × Int) => (p.1 + p.2).fdiv 2)
                 | 3 => Except.ok (pares.map fun (p : Int × Int) => (p.1 - p.2).fdiv 2)
                 | _ => Except.error "Canal no válido") with
          | .error e => .error e
          | .ok mono =>
            match packHn mono.length mono with
            | .error e => .error e
            | .ok datos_mono =>
              match info.frec_muestreo with
              | some frec => .ok (crear_cabecera 1 frec 16 datos_mono.length ++ datos_mono)
              | none => .error "TypeError: frec_muestreo is None"
      | _, _ => .error "TypeError: despl_datos or tam_datos is None"

/-- `mono2estereo(fic_izq, fic_der, fic_salida)`: the returned byte list is
what the function writes to `fic_salida`.  The pack format asks for
`2 * len(datos_izq)` items while `zip` truncates to the shorter input. -/
def mono2estereo (fic_izq fic_der : List Nat) : Except String (List Nat) :=
  match leer_cabecera fic_izq with
  | .error e => .error e
  | .ok info_izq =>
    if info_izq.canales ≠ some 1 then .error "El canal izquierdo no es mono"
    else
      match info_izq.despl_datos, info_izq.tam_datos with
      | some d1, some t1 =>
        match unpackH (t1 / 2) (readBytes fic_izq d1 t1) with
        | .error e => .error e
        | .ok datos_izq =>
          match leer_cabecera fic_der with
          | .error e => .error e
          | .ok info_der =>
            if info_der.canales ≠ some 1 then .error "El canal derecho no es mono"
            else
              match info_der.despl_datos, info_der.tam_datos with
              | some d2, some t2 =>
                match unpackH (t2 / 2) (readBytes fic_der d2 t2) with
                | .error e => .error e
                | .ok datos_der =>
                  match packHn (2 * datos_izq.length) (flattenPairs (datos_izq.zip datos_der)) with
                  | .error e => .error e
                  | .ok datos_est =>
                    match info_izq.frec_muestreo with
                    | some frec => .ok (crear_cabecera 2 frec 16 datos_est.length ++ datos_est)
                    | none => .error "TypeError: frec_muestreo is None"
              | _, _ => .error "TypeError: despl_datos or tam_datos is None"
      | _, _ => .error "TypeError: despl_datos or tam_datos is None"

/-- One encoded word of `codEstereo`:
`((l + r) << 16 & 0xFFFF0000) | ((l - r) & 0xFFFF)`.  A Python bitwise AND of
a possibly negative int with a nonnegative mask is the nonnegative
two's-complement residue, i.e. `Int.emod` by 65536 here; the shifted high
half and the masked low half occupy disjoint bit ranges, so the OR is
addition. -/
def codPair (l r : Int) : Nat :=
  ((l + r) % 65536).toNat * 65536 + ((l - r) % 65536).toNat

/-- `codEstereo(fic_entrada, fic_codificado)`: the returned byte list is what
the function writes to `fic_codificado`. -/
def codEstereo (fic_entrada : List Nat) : Except String (List Nat) :=
  match leer_cabecera fic_entrada with
  | .error e => .error e
  | .ok info =>
    if info.canales ≠ some 2 then .error "El archivo no es estéreo"
    else
      match info.despl_datos, info.tam_datos with
      | some despl, some tam =>
        match unpackH (tam / 2) (readBytes fic_entrada despl tam) with
        | .error e => .error e
        | .ok datos =>
          let pares := (evens datos).zip (odds datos)
          let codificados := pares.map fun p => codPair p.1 p.2
          match packIn codificados.length codificados with
          | .error e => .error e
          | .ok datos_cod =>
            match info.frec_muestreo with
            | some frec => .ok (crear_cabecera 1 frec 32 datos_cod.length ++ datos_cod)
            | none => .error "TypeError: frec_muestreo is None"
      | _, _ => .error "TypeError: despl_datos or tam_datos is None"

/-- The reconstruction loop of `decEstereo`: for each 32-bit word, take the
high and low 16-bit halves, reinterpret them as signed sum and difference,
and emit `(suma + dif) // 2` and `(suma - dif) // 2`. -/
def decodePairs : List Nat → List Int
  | [] => []
  | cod :: rest =>
    let suma := sInt16 (cod / 65536 % 65536)
    let dif := sInt16 (cod % 65536)
    (suma + dif).fdiv 2 :: (suma - dif).fdiv 2 :: decodePairs rest

/-- `decEstereo(fic_codificado, fic_salida)`: the returned byte list is what
the function writes to `fic_salida`. -/
def decEstereo (fic_codificado : List Nat) : Except String (List Nat) :=
  match leer_cabecera fic_codificado with
  | .error e => .error e
  | .ok info =>
    if info.bits_muestra ≠ some 32 then .error "La señal no está codificada en 32 bits"
    else
      match info.despl_datos, info.tam_datos with
      | some despl, some tam =>
        match unpackI (tam / 4) (readBytes fic_codificado despl tam) with
        | .error e => .error e
        | .ok datos =>
          let reconstruido := decodePairs datos
          match packHn reconstruido.length reconstruido with
          | .error e => .error e
          | .ok datos_est =>
            match info.frec_muestreo with
            | some frec => .ok (crear_cabecera 2 frec 16 datos_est.length ++ datos_est)
            | none => .error "TypeError: frec_muestreo is None"
      | _, _ => .error "TypeError: despl_datos or tam_datos is None"

/-- A stereo WAV file with the given sample rate whose payload is the frame
list `x`, as produced by the repository itself (header plus 16-bit
interleaved samples). -/
def stereoFile (frec : Nat) (x : List (Int × Int)) : List Nat :=
  crear_cabecera 2 frec 16 (4 * x.length) ++ bytesH (flattenPairs x)

/-- A mono WAV file with the given sample rate whose payload is the sample
list `xs` (header plus 16-bit samples). -/
def monoFile (frec : Nat) (xs : List Int) : List Nat :=
  crear_cabecera 1 frec 16 (2 * xs.length) ++ bytesH xs

/-- A container stream like `crear_cabecera c r b t ++ payload`, but with one
extra sub-chunk — 4-byte `tag`, declared size `body.length`, then `body` —
inserted between the format sub-chunk and the data sub-chunk
(`fileConChunkExtra_insercion` below relates it to `crear_cabecera`). -/
def fileConChunkExtra (c r b t : Nat) (tag body payload : List Nat) : List Nat :=
  ([82, 73, 70, 70] ++ u32le (36 + t) ++ [87, 65, 86, 69]) ++
  ([102, 109, 116, 32] ++ u32le 16 ++ u16le 1 ++ u16le c ++ u32le r ++
    u32le (r * c * b / 8) ++ u16le (c * b / 8) ++ u16le b) ++
  (tag ++ u32le body.length ++ body) ++
  ([100, 97, 116, 97] ++ u32le t) ++ payload

example : estereo2mono (stereoFile 8000 [(-1, -2)]) 2 = .ok (monoFile 8000 [-2]) := by rfl

example :
    codEstereo (stereoFile 8000 [(30000, 30000)]) =
      .ok (crear_cabecera 1 8000 32 4 ++ [0, 0, 96, 234]) := by rfl

example :
    decEstereo (crear_cabecera 1 8000 32 4 ++ [0, 0, 96, 234]) =
      .ok (stereoFile 8000 [(-2768, -2768)]) := by rfl

example :
    codEstereo (stereoFile 8000 [(100, -3)]) = .ok (crear_cabecera 1 8000 32 4 ++ bytesI [codPair 100 (-3)]) ∧
    decEstereo (crear_cabecera 1 8000 32 4 ++ bytesI [codPair 100 (-3)]) = .ok (stereoFile 8000 [(100, -3)]) := by
  constructor <;> rfl

/-! Basic facts about the byte reader and the field codecs. -/

theorem readBytes_length (f : List Nat) (pos n : Nat) :
    (readBytes f pos n).length = min n (f.length - pos) := by
  simp [readBytes]

theorem readBytes_at (a b : List Nat) (n : Nat) : readBytes (a ++ b) a.length n = b.take n := by
  simp [readBytes, List.drop_left]

theorem readBytes_past (f : List Nat) (pos n : Nat) (h : f.length ≤ pos) :
    readBytes f pos n = [] := by
  simp [readBytes, List.drop_eq_nil_iff.mpr h]

theorem leU16_bytes (n : Nat) (h : n < 65536) : leU16 [n % 256, n / 256 % 256] = n := by
  simp only [leU16]
  omega

theorem leU32_bytes (n : Nat) (h : n < 4294967296) :
    leU32 [n % 256, n / 256 % 256, n / 65536 % 256, n / 16777216 % 256] = n := by
  simp only [leU32]
  omega

/-! The chunk loop: fuel independence and single-step unfolding. -/

/-- Unfolding of one iteration of the sub-chunk loop. -/
theorem leerBucle_succ (fuel : Nat) (f : List Nat) (pos : Nat) (info : InfoWav) :
    leerBucle (fuel + 1) f pos info =
      (let cab := readBytes f pos 8
       if cab.length < 8 then .ok info
       else
         let ident := cab.take 4
         let tam := leU32 (cab.drop 4)
         if ident = [102, 109, 116, 32] then
           let datos_fmt := readBytes f (pos + 8) tam
           if (datos_fmt.take 16).length < 16 then
             .error "struct.error: unpack requires a buffer of 16 bytes"
           else
             leerBucle fuel f (pos + 8 + datos_fmt.length)
               { info with
                 formato := some (leU16 (datos_fmt.take 2)),
                 canales := some (leU16 ((datos_fmt.drop 2).take 2)),
                 frec_muestreo := some (leU32 ((datos_fmt.drop 4).take 4)),
                 bits_muestra := some (leU16 ((datos_fmt.drop 14).take 2)) }
         else if ident = [100, 97, 116, 97] then
           leerBucle fuel f (pos + 8 + tam)
             { info with despl_datos := some (pos + 8), tam_datos := some tam }
         else
           leerBucle fuel f (pos + 8 + tam) info) := rfl

/-- The loop result does not depend on the fuel once the fuel dominates the
remaining byte count: every continuing iteration consumes at least 8 bytes. -/
theorem leerBucle_fuel_eq (m : Nat) :
    ∀ (n : Nat) (f : List Nat) (pos : Nat) (info : InfoWav),
      f.length - pos < 8 * m → f.length - pos < 8 * n →
      leerBucle m f pos info = leerBucle n f pos info := by
  induction m with
  | zero => intro n f pos info hm hn; omega
  | succ m ih =>
    intro n f pos info hm hn
    match n with
    | 0 => omega
    | n' + 1 =>
      rw [leerBucle_succ, leerBucle_succ]
      by_cases h8 : (readBytes f pos 8).length < 8
      · simp only [if_pos h8]
      · have hlen : pos + 8 ≤ f.length := by
          have := readBytes_length f pos 8
          omega
        simp only [if_neg h8]
        by_cases hfmt : (readBytes f pos 8).take 4 = [102, 109, 116, 32]
        · simp only [if_pos hfmt]
          by_cases hshort :
              ((readBytes f (pos + 8) (leU32 ((readBytes f pos 8).drop 4))).take 16).length < 16
          · simp only [if_pos hshort]
          · simp only [if_neg hshort]
            exact ih _ _ _ _ (by omega) (by omega)
        · simp only [if_neg hfmt]
          by_cases hdata : (readBytes f pos 8).take 4 = [100, 97, 116, 97]
          · simp only [if_pos hdata]
            exact ih _ _ _ _ (by omega) (by omega)
          · simp only [if_neg hdata]
            exact ih _ _ _ _ (by omega) (by omega)

/-- Loop step: no full 8-byte sub-chunk header remains, so the loop exits. -/
theorem leerChunks_break (f : List Nat) (pos : Nat) (info : InfoWav) (h : f.length < pos + 8) :
    leerChunks f pos info = .ok info := by
  rw [leerChunks, leerBucle_succ]
  have : (readBytes f pos 8).length < 8 := by
    have := readBytes_length f pos 8
    omega
  simp only [if_pos this]

/-- Loop step: a data sub-chunk records the payload position and length and
seeks past the payload. -/
theorem leerChunks_data (f : List Nat) (pos : Nat) (info : InfoWav)
    (h8 : pos + 8 ≤ f.length)
    (hid : (readBytes f pos 8).take 4 = [100, 97, 116, 97]) :
    leerChunks f pos info =
      leerChunks f (pos + 8 + leU32 ((readBytes f pos 8).drop 4))
        { info with
          despl_datos := some (pos + 8),
          tam_datos := some (leU32 ((readBytes f pos 8).drop 4)) } := by
  conv_lhs => rw [leerChunks, leerBucle_succ]
  have hlen : ¬ (readBytes f pos 8).length < 8 := by
    have := readBytes_length f pos 8
    omega
  have hnefmt : (readBytes f pos 8).take 4 ≠ [102, 109, 116, 32] := by
    rw [hid]; decide
  simp only [if_neg hlen, if_neg hnefmt, if_pos hid]
  rw [leerChunks]
  exact leerBucle_fuel_eq _ _ _ _ _ (by omega) (by omega)

/-- Loop step: an unknown sub-chunk is skipped over using its declared size. -/
theorem leerChunks_skip (f : List Nat) (pos : Nat) (info : InfoWav)
    (h8 : pos + 8 ≤ f.length)
    (hid1 : (readBytes f pos 8).take 4 ≠ [102, 109, 116, 32])
    (hid2 : (readBytes f pos 8).take 4 ≠ [100, 97, 116, 97]) :
    leerChunks f pos info = leerChunks f (pos + 8 + leU32 ((readBytes f pos 8).drop 4)) info := by
  conv_lhs => rw [leerChunks, leerBucle_succ]
  have hlen : ¬ (readBytes f pos 8).length < 8 := by
    have := readBytes_length f pos 8
    omega
  simp only [if_neg hlen, if_neg hid1, if_neg hid2]
  rw [leerChunks]
  exact leerBucle_fuel_eq _ _ _ _ _ (by omega) (by omega)

/-- Loop step: the format sub-chunk is decoded into the format fields. -/
theorem leerChunks_fmt (f : List Nat) (pos : Nat) (info : InfoWav)
    (h8 : pos + 8 ≤ f.length)
    (hid : (readBytes f pos 8).take 4 = [102, 109, 116, 32])
    (hfmt : 16 ≤ (readBytes f (pos + 8) (leU32 ((readBytes f pos 8).drop 4))).length) :
    leerChunks f pos info =
      leerChunks f (pos + 8 + (readBytes f (pos + 8) (leU32 ((readBytes f pos 8).drop 4))).length)
        { info with
          formato := some (leU16 ((readBytes f (pos + 8) (leU32 ((readBytes f pos 8).drop 4))).take 2)),
          canales := some (leU16 (((readBytes f (pos + 8) (leU32 ((readBytes f pos 8).drop 4))).drop 2).take 2)),
          frec_muestreo := some (leU32 (((readBytes f (pos + 8) (leU32 ((readBytes f pos 8).drop 4))).drop 4).take 4)),
          bits_muestra := some (leU16 (((readBytes f (pos + 8) (leU32 ((readBytes f pos 8).drop 4))).drop 14).take 2)) } := by
  conv_lhs => rw [leerChunks, leerBucle_succ]
  have hlen : ¬ (readBytes f pos 8).length < 8 := by
    have := readBytes_length f pos 8
    omega
  have hshort :
      ¬ ((readBytes f (pos + 8) (leU32 ((readBytes f pos 8).drop 4))).take 16).length < 16 := by
    simp only [List.length_take]
    omega
  simp only [if_neg hlen, if_pos hid, if_neg hshort]
  rw [leerChunks]
  exact leerBucle_fuel_eq _ _ _ _ _ (by omega) (by omega)

/-! Parsing a header produced by `crear_cabecera`. -/

theorem crear_cabecera_length (c r b t : Nat) : (crear_cabecera c r b t).length = 44 := by
  simp [crear_cabecera, u16le, u32le]

theorem leerChunks_build (c r b t : Nat) (payload : List Nat)
    (hc : c < 65536) (hr : r < 4294967296) (hb : b < 65536)
    (ht : t < 4294967296) (hp : payload.length = t) :
    leerChunks (crear_cabecera c r b t ++ payload) 12 infoInicial =
      .ok ⟨some 44, some t, some 1, some c, some r, some b⟩ := by
  have hlenf : (crear_cabecera c r b t ++ payload).length = 44 + t := by
    simp [crear_cabecera, u16le, u32le, hp]
    omega
  have s1 : readBytes (crear_cabecera c r b t ++ payload) 12 8 = [102, 109, 116, 32, 16, 0, 0, 0] := by
    simp [crear_cabecera, u16le, u32le, readBytes]
  have s2 : readBytes (crear_cabecera c r b t ++ payload) (12 + 8) 16 =
      [1, 0, c % 256, c / 256 % 256, r % 256, r / 256 % 256, r / 65536 % 256, r / 16777216 % 256,
       r * c * b / 8 % 256, r * c * b / 8 / 256 % 256, r * c * b / 8 / 65536 % 256,
       r * c * b / 8 / 16777216 % 256, c * b / 8 % 256, c * b / 8 / 256 % 256,
       b % 256, b / 256 % 256] := by
    simp [crear_cabecera, u16le, u32le, readBytes]
  have s3 : readBytes (crear_cabecera c r b t ++ payload) 36 8 =
      [100, 97, 116, 97, t % 256, t / 256 % 256, t / 65536 % 256, t / 16777216 % 256] := by
    simp [crear_cabecera, u16le, u32le, readBytes]
  rw [leerChunks_fmt _ 12 _ (by omega) (by simp [s1])
    (by simp only [s1]; simp only [List.drop_succ_cons, List.drop_zero]
        simp only [leU32]; norm_num [s2])]
  have e20 : leU32 ((readBytes (crear_cabecera c r b t ++ payload) 12 8).drop 4) = 16 := by
    simp [s1, leU32]
  rw [e20, s2]
  have hc' : c % 256 + 256 * (c / 256 % 256) = c := by omega
  have hr' : r % 256 + 256 * (r / 256 % 256) + 65536 * (r / 65536 % 256) +
      16777216 * (r / 16777216 % 256) = r := by omega
  have hb' : b % 256 + 256 * (b / 256 % 256) = b := by omega
  simp only [List.take_succ_cons, List.take_zero, List.drop_succ_cons, List.drop_zero,
    List.length_cons, List.length_nil, leU16, leU32]
  rw [hc', hr', hb']
  norm_num
  rw [leerChunks_data _ 36 _ (by omega) (by simp [s3])]
  have e36 : leU32 ((readBytes (crear_cabecera c r b t ++ payload) 36 8).drop 4) = t := by
    simp only [s3, List.drop_succ_cons, List.drop_zero, leU32]
    omega
  rw [e36]
  rw [leerChunks_break _ _ _ (by omega)]

theorem leer_cabecera_build (c r b t : Nat) (payload : List Nat)
    (hc : c < 65536) (hr : r < 4294967296) (hb : b = 16 ∨ b = 32)
    (ht : t < 4294967296) (hp : payload.length = t) :
    leer_cabecera (crear_cabecera c r b t ++ payload) =
      .ok ⟨some 44, some t, some 1, some c, some r, some b⟩ := by
  have s0 : readBytes (crear_cabecera c r b t ++ payload) 0 12 =
      [82, 73, 70, 70, (36 + t) % 256, (36 + t) / 256 % 256, (36 + t) / 65536 % 256,
       (36 + t) / 16777216 % 256, 87, 65, 86, 69] := by
    simp [crear_cabecera, u16le, u32le, readBytes]
  have hchunks := leerChunks_build c r b t payload hc hr (by omega) ht hp
  simp only [leer_cabecera, s0, hchunks]
  norm_num
  rcases hb with h | h <;> simp [h]

/-! Sample codec lemmas. -/

theorem readBytes_payload (c r b t n : Nat) (data : List Nat) :
    readBytes (crear_cabecera c r b t ++ data) 44 n = data.take n := by
  have h := readBytes_at (crear_cabecera c r b t) data n
  rwa [crear_cabecera_length] at h

theorem bytesH_length (xs : List Int) : (bytesH xs).length = 2 * xs.length := by
  induction xs with
  | nil => rfl
  | cons x rest ih => simp [bytesH, u16le, ih]; omega

theorem bytesI_length (xs : List Nat) : (bytesI xs).length = 4 * xs.length := by
  induction xs with
  | nil => rfl
  | cons x rest ih => simp [bytesI, u32le, ih]; omega

theorem sInt16_bounds (n : Nat) : -32768 ≤ sInt16 n ∧ sInt16 n ≤ 32767 := by
  simp only [sInt16]
  split <;> omega

theorem sInt16_pattern (x : Int) (h : -32768 ≤ x ∧ x ≤ 32767) :
    sInt16 (x % 65536).toNat = x := by
  have h1 : 0 ≤ x % 65536 ∧ x % 65536 < 65536 := by omega
  have h2 : ((x % 65536).toNat : Int) = x % 65536 := by omega
  have h3 : (x % 65536).toNat % 65536 = (x % 65536).toNat := by omega
  simp only [sInt16, h3]
  split <;> omega

theorem decodeH_bytesH (xs : List Int) (h : ∀ x ∈ xs, -32768 ≤ x ∧ x ≤ 32767) :
    decodeH (bytesH xs) = xs := by
  induction xs with
  | nil => rfl
  | cons x rest ih =>
    have hx := h x (List.mem_cons_self x rest)
    have hrest := ih fun y hy => h y (List.mem_cons_of_mem x hy)
    have hu : (x % 65536).toNat % 256 + 256 * ((x % 65536).toNat / 256 % 256) =
        (x % 65536).toNat := by omega
    simp [bytesH, u16le, decodeH, hu, sInt16_pattern x hx, hrest]

theorem decodeI_bytesI (xs : List Nat) (h : ∀ x ∈ xs, x < 4294967296) :
    decodeI (bytesI xs) = xs := by
  induction xs with
  | nil => rfl
  | cons x rest ih =>
    have hx := h x (List.mem_cons_self x rest)
    have hrest := ih fun y hy => h y (List.mem_cons_of_mem x hy)
    have hu : x % 256 + 256 * (x / 256 % 256) + 65536 * (x / 65536 % 256) +
        16777216 * (x / 16777216 % 256) = x := by omega
    simp [bytesI, u32le, decodeI, hu, hrest]

theorem packHn_ok (xs : List Int) (h : ∀ x ∈ xs, -32768 ≤ x ∧ x ≤ 32767) :
    packHn xs.length xs = .ok (bytesH xs) := by
  simp only [packHn]
  rw [if_neg (by simp), if_pos h]

theorem packIn_ok (xs : List Nat) (h : ∀ x ∈ xs, x < 4294967296) :
    packIn xs.length xs = .ok (bytesI xs) := by
  simp only [packIn]
  rw [if_neg (by simp), if_pos h]

theorem unpackH_bytesH (xs : List Int) (h : ∀ x ∈ xs, -32768 ≤ x ∧ x ≤ 32767) :
    unpackH xs.length (bytesH xs) = .ok xs := by
  simp [unpackH, bytesH_length, decodeH_bytesH xs h]

theorem unpackI_bytesI (xs : List Nat) (h : ∀ x ∈ xs, x < 4294967296) :
    unpackI xs.length (bytesI xs) = .ok xs := by
  simp [unpackI, bytesI_length, decodeI_bytesI xs h]

theorem evens_flattenPairs (ps : List (Int × Int)) :
    evens (flattenPairs ps) = ps.map Prod.fst := by
  induction ps with
  | nil => rfl
  | cons p rest ih => simp [flattenPairs, evens, odds, ih]

theorem odds_flattenPairs (ps : List (Int × Int)) :
    odds (flattenPairs ps) = ps.map Prod.snd := by
  induction ps with
  | nil => rfl
  | cons p rest ih => simp [flattenPairs, evens, odds, ih]

theorem zip_fst_snd (ps : List (Int × Int)) :
    (ps.map Prod.fst).zip (ps.map Prod.snd) = ps := by
  induction ps with
  | nil => rfl
  | cons p rest ih => simp [ih]

theorem flattenPairs_length (ps : List (Int × Int)) :
    (flattenPairs ps).length = 2 * ps.length := by
  induction ps with
  | nil => rfl
  | cons p rest ih => simp [flattenPairs, ih]; omega

/-- Floor-halving a sum or difference of two signed 16-bit values stays in
the signed 16-bit range. -/
theorem fdiv_two_range (s d : Int) (hs : -32768 ≤ s ∧ s ≤ 32767)
    (hd : -32768 ≤ d ∧ d ≤ 32767) :
    -32768 ≤ (s + d).fdiv 2 ∧ (s + d).fdiv 2 ≤ 32767 := by
  rw [Int.fdiv_eq_ediv _ (by omega)]
  omega

/-- Floor-halving any value of a 17-bit signed span lands in the signed
16-bit range; sums and differences of two signed 16-bit samples qualify. -/
theorem fdiv_two_range' (a : Int) (h : -65536 ≤ a ∧ a ≤ 65535) :
    -32768 ≤ a.fdiv 2 ∧ a.fdiv 2 ≤ 32767 := by
  rw [Int.fdiv_eq_ediv _ (by omega)]
  omega

theorem flattenPairs_range (ps : List (Int × Int))
    (hx : ∀ p ∈ ps, (-32768 ≤ p.1 ∧ p.1 ≤ 32767) ∧ (-32768 ≤ p.2 ∧ p.2 ≤ 32767)) :
    ∀ x ∈ flattenPairs ps, -32768 ≤ x ∧ x ≤ 32767 := by
  induction ps with
  | nil => intro x hm; cases hm
  | cons p rest ih =>
    obtain ⟨a, b⟩ := p
    have hp := hx ⟨a, b⟩ (List.mem_cons_self _ rest)
    intro x hm
    simp only [flattenPairs, List.mem_cons] at hm
    rcases hm with rfl | rfl | hm
    · exact hp.1
    · exact hp.2
    · exact ih (fun q hq => hx q (List.mem_cons_of_mem _ hq)) x hm

/-! Evaluation of the conversion functions on files of the canonical shape. -/

theorem leer_cabecera_stereoFile (frec : Nat) (ps : List (Int × Int))
    (hr : frec < 4294967296) (ht : 4 * ps.length < 4294967296) :
    leer_cabecera (stereoFile frec ps) =
      .ok ⟨some 44, some (4 * ps.length), some 1, some 2, some frec, some 16⟩ := by
  unfold stereoFile
  exact leer_cabecera_build 2 frec 16 (4 * ps.length) _ (by omega) hr (Or.inl rfl) ht
    (by rw [bytesH_length, flattenPairs_length]; omega)

theorem leer_cabecera_monoFile (frec : Nat) (xs : List Int)
    (hr : frec < 4294967296) (ht : 2 * xs.length < 4294967296) :
    leer_cabecera (monoFile frec xs) =
      .ok ⟨some 44, some (2 * xs.length), some 1, some 1, some frec, some 16⟩ := by
  unfold monoFile
  exact leer_cabecera_build 1 frec 16 (2 * xs.length) _ (by omega) hr (Or.inl rfl) ht
    (by rw [bytesH_length])

theorem readBytes_stereoFile (frec : Nat) (ps : List (Int × Int)) :
    readBytes (stereoFile frec ps) 44 (4 * ps.length) = bytesH (flattenPairs ps) := by
  unfold stereoFile
  rw [readBytes_payload]
  have hl : (bytesH (flattenPairs ps)).length = 4 * ps.length := by
    rw [bytesH_length, flattenPairs_length]; omega
  rw [← hl, List.take_length]

theorem readBytes_monoFile (frec : Nat) (xs : List Int) :
    readBytes (monoFile frec xs) 44 (2 * xs.length) = bytesH xs := by
  unfold monoFile
  rw [readBytes_payload]
  rw [← bytesH_length, List.take_length]

/-- `estereo2mono` on a canonical stereo file, evaluated up to the channel
dispatch: the frame list is recovered exactly and only the mode choice,
final packing and header emission remain. -/
theorem estereo2mono_dispatch (frec : Nat) (ps : List (Int × Int)) (canal : Nat)
    (hr : frec < 4294967296) (ht : 4 * ps.length < 4294967296)
    (hx : ∀ p ∈ ps, (-32768 ≤ p.1 ∧ p.1 ≤ 32767) ∧ (-32768 ≤ p.2 ∧ p.2 ≤ 32767)) :
    estereo2mono (stereoFile frec ps) canal =
      match (match canal with
             | 0 => Except.ok (ps.map Prod.fst)
             | 1 => Except.ok (ps.map Prod.snd)
             | 2 => Except.ok (ps.map fun (p : Int × Int) => (p.1 + p.2).fdiv 2)
             | 3 => Except.ok (ps.map fun (p : Int × Int) => (p.1 - p.2).fdiv 2)
             | _ => Except.error "Canal no válido") with
      | .error e => .error e
      | .ok mono =>
        match packHn mono.length mono with
        | .error e => .error e
        | .ok datos_mono => .ok (crear_cabecera 1 frec 16 datos_mono.length ++ datos_mono) := by
  have hunpack : unpackH (4 * ps.length / 2) (bytesH (flattenPairs ps)) = .ok (flattenPairs ps) := by
    have h2 : 4 * ps.length / 2 = (flattenPairs ps).length := by
      rw [flattenPairs_length]; omega
    rw [h2]
    exact unpackH_bytesH _ (flattenPairs_range ps hx)
  simp only [estereo2mono, leer_cabecera_stereoFile frec ps hr ht, readBytes_stereoFile,
    hunpack, evens_flattenPairs, odds_flattenPairs, zip_fst_snd]
  norm_num

/-- `estereo2mono` on a canonical stereo file when the mode dispatch
produces sample list `mono` whose members all fit the signed 16-bit range:
the output file is the mono header followed by the packed samples. -/
theorem estereo2mono_eval (frec : Nat) (ps : List (Int × Int)) (canal : Nat) (mono : List Int)
    (hr : frec < 4294967296) (ht : 4 * ps.length < 4294967296)
    (hx : ∀ p ∈ ps, (-32768 ≤ p.1 ∧ p.1 ≤ 32767) ∧ (-32768 ≤ p.2 ∧ p.2 ≤ 32767))
    (hm : (match canal with
           | 0 => Except.ok (ps.map Prod.fst)
           | 1 => Except.ok (ps.map Prod.snd)
           | 2 => Except.ok (ps.map fun (p : Int × Int) => (p.1 + p.2).fdiv 2)
           | 3 => Except.ok (ps.map fun (p : Int × Int) => (p.1 - p.2).fdiv 2)
           | _ => Except.error "Canal no válido") = Except.ok mono)
    (hrange : ∀ y ∈ mono, -32768 ≤ y ∧ y ≤ 32767) :
    estereo2mono (stereoFile frec ps) canal = .ok (monoFile frec mono) := by
  rw [estereo2mono_dispatch frec ps canal hr ht hx, hm]
  simp only [packHn_ok mono hrange, bytesH_length, monoFile]

/-- `estereo2mono` on a canonical stereo file when the mode dispatch fails:
the mode error is returned. -/
theorem estereo2mono_eval_error (frec : Nat) (ps : List (Int × Int)) (canal : Nat) (msg : String)
    (hr : frec < 4294967296) (ht : 4 * ps.length < 4294967296)
    (hx : ∀ p ∈ ps, (-32768 ≤ p.1 ∧ p.1 ≤ 32767) ∧ (-32768 ≤ p.2 ∧ p.2 ≤ 32767))
    (hm : (match canal with
           | 0 => Except.ok (ps.map Prod.fst)
           | 1 => Except.ok (ps.map Prod.snd)
           | 2 => Except.ok (ps.map fun (p : Int × Int) => (p.1 + p.2).fdiv 2)
           | 3 => Except.ok (ps.map fun (p : Int × Int) => (p.1 - p.2).fdiv 2)
           | _ => Except.error "Canal no válido") = Except.error msg) :
    estereo2mono (stereoFile frec ps) canal = .error msg := by
  rw [estereo2mono_dispatch frec ps canal hr ht hx, hm]

theorem decodePairs_range (ws : List Nat) : ∀ y ∈ decodePairs ws, -32768 ≤ y ∧ y ≤ 32767 := by
  induction ws with
  | nil => intro y hm; cases hm
  | cons cod rest ih =>
    intro y hm
    have hs := sInt16_bounds (cod / 65536 % 65536)
    have hd := sInt16_bounds (cod % 65536)
    simp only [decodePairs, List.mem_cons] at hm
    rcases hm with rfl | rfl | hm
    · exact fdiv_two_range' _ (by omega)
    · exact fdiv_two_range' _ (by omega)
    · exact ih y hm

theorem decodePairs_length (ws : List Nat) : (decodePairs ws).length = 2 * ws.length := by
  induction ws with
  | nil => rfl
  | cons cod rest ih => simp [decodePairs, ih]; omega

theorem codPair_lt (l r : Int) : codPair l r < 4294967296 := by
  simp only [codPair]
  omega

/-- `codEstereo` on a canonical stereo file: one packed 32-bit word per frame. -/
theorem codEstereo_eval (frec : Nat) (ps : List (Int × Int))
    (hr : frec < 4294967296) (ht : 4 * ps.length < 4294967296)
    (hx : ∀ p ∈ ps, (-32768 ≤ p.1 ∧ p.1 ≤ 32767) ∧ (-32768 ≤ p.2 ∧ p.2 ≤ 32767)) :
    codEstereo (stereoFile frec ps) =
      .ok (crear_cabecera 1 frec 32 (4 * ps.length) ++
        bytesI (ps.map fun (p : Int × Int) => codPair p.1 p.2)) := by
  have hunpack : unpackH (4 * ps.length / 2) (bytesH (flattenPairs ps)) = .ok (flattenPairs ps) := by
    have h2 : 4 * ps.length / 2 = (flattenPairs ps).length := by
      rw [flattenPairs_length]; omega
    rw [h2]
    exact unpackH_bytesH _ (flattenPairs_range ps hx)
  have hpk := packIn_ok (ps.map fun (p : Int × Int) => codPair p.1 p.2)
    (fun w hw => by
      simp only [List.mem_map] at hw
      obtain ⟨p, hp, rfl⟩ := hw
      exact codPair_lt p.1 p.2)
  rw [List.length_map] at hpk
  simp only [codEstereo, leer_cabecera_stereoFile frec ps hr ht, readBytes_stereoFile,
    hunpack, evens_flattenPairs, odds_flattenPairs, zip_fst_snd, List.length_map, hpk,
    bytesI_length]
  norm_num

/-- `decEstereo` on a file holding 32-bit words `ws`: each word is split,
sign-extended and averaged back into a stereo frame. -/
theorem decEstereo_eval (frec : Nat) (ws : List Nat)
    (hr : frec < 4294967296) (ht : 4 * ws.length < 4294967296)
    (hw : ∀ w ∈ ws, w < 4294967296) :
    decEstereo (crear_cabecera 1 frec 32 (4 * ws.length) ++ bytesI ws) =
      .ok (crear_cabecera 2 frec 16 (2 * (decodePairs ws).length) ++ bytesH (decodePairs ws)) := by
  have hparse := leer_cabecera_build 1 frec 32 (4 * ws.length) (bytesI ws)
    (by omega) hr (Or.inr rfl) ht (bytesI_length ws)
  have hread : readBytes (crear_cabecera 1 frec 32 (4 * ws.length) ++ bytesI ws) 44
      (4 * ws.length) = bytesI ws := by
    rw [readBytes_payload, ← bytesI_length, List.take_length]
  have hunpack : unpackI (4 * ws.length / 4) (bytesI ws) = .ok ws := by
    have h4 : 4 * ws.length / 4 = ws.length := by omega
    rw [h4]
    exact unpackI_bytesI ws hw
  simp only [decEstereo, hparse, hread, hunpack, packHn_ok _ (decodePairs_range ws),
    bytesH_length]
  norm_num

/-- Decoding the packed words of a frame list recovers the interleaved
samples when every frame sum and difference fits the signed 16-bit range. -/
theorem decodePairs_codPair (ps : List (Int × Int))
    (hsum : ∀ p ∈ ps, (-32768 ≤ p.1 + p.2 ∧ p.1 + p.2 ≤ 32767) ∧
      (-32768 ≤ p.1 - p.2 ∧ p.1 - p.2 ≤ 32767)) :
    decodePairs (ps.map fun (p : Int × Int) => codPair p.1 p.2) = flattenPairs ps := by
  induction ps with
  | nil => rfl
  | cons p rest ih =>
    obtain ⟨l, r⟩ := p
    have hp := hsum ⟨l, r⟩ (List.mem_cons_self _ _)
    have hrest := ih fun q hq => hsum q (List.mem_cons_of_mem _ hq)
    obtain ⟨A, hA1, hA2⟩ : ∃ A : Nat, ((l + r) % 65536).toNat = A ∧ A < 65536 :=
      ⟨_, rfl, by omega⟩
    obtain ⟨B, hB1, hB2⟩ : ∃ B : Nat, ((l - r) % 65536).toNat = B ∧ B < 65536 :=
      ⟨_, rfl, by omega⟩
    have hhi : codPair l r / 65536 % 65536 = ((l + r) % 65536).toNat := by
      simp only [codPair, hA1, hB1]; omega
    have hlo : codPair l r % 65536 = ((l - r) % 65536).toNat := by
      simp only [codPair, hA1, hB1]; omega
    have hs : sInt16 ((l + r) % 65536).toNat = l + r := sInt16_pattern _ hp.1
    have hd : sInt16 ((l - r) % 65536).toNat = l - r := sInt16_pattern _ hp.2
    have hizq : ((l + r) + (l - r)).fdiv 2 = l := by
      rw [Int.fdiv_eq_ediv _ (by omega)]; omega
    have hder : ((l + r) - (l - r)).fdiv 2 = r := by
      rw [Int.fdiv_eq_ediv _ (by omega)]; omega
    simp only [List.map_cons, decodePairs, hhi, hlo, hs, hd, hizq, hder, flattenPairs, hrest]

/-! Claim theorems. -/

/-- C2: for every valid input tuple, parsing the stream formed by
`crear_cabecera(channels, sampleRate, bitsPerSample, dataLength)` followed by
`dataLength` payload bytes succeeds and recovers exactly the same four
fields, a payload length of `dataLength`, and a payload offset of 44, which
is the byte length of the header. -/
theorem leer_cabecera_crear_cabecera_campos (c r b t : Nat) (payload : List Nat)
    (hc : c < 65536) (hr : r < 4294967296) (hb : b = 16 ∨ b = 32)
    (ht : t < 4294967296) (hp : payload.length = t) :
    leer_cabecera (crear_cabecera c r b t ++ payload) =
      .ok ⟨some 44, some t, some 1, some c, some r, some b⟩ ∧
    (crear_cabecera c r b t).length = 44 :=
  ⟨leer_cabecera_build c r b t payload hc hr hb ht hp, crear_cabecera_length c r b t⟩

/-- Witness for C2 at channels 2, rate 8000, 16 bits, 4 payload bytes. -/
theorem leer_cabecera_crear_cabecera_campos_witness :
    leer_cabecera (crear_cabecera 2 8000 16 4 ++ [9, 9, 9, 9]) =
      .ok ⟨some 44, some 4, some 1, some 2, some 8000, some 16⟩ ∧
    (crear_cabecera 2 8000 16 4).length = 44 :=
  leer_cabecera_crear_cabecera_campos 2 8000 16 4 [9, 9, 9, 9]
    (by norm_num) (by norm_num) (Or.inl rfl) (by norm_num) rfl

/-- C3 counterexample: on the single frame (-1, -2) the sum-average mode
produces -2 (floor division of -3 by 2), not the toward-zero truncation
-1 = `Int.tdiv (-3) 2` that the claim asserts. -/
theorem estereo2mono_media_trunca_hacia_cero_refutada :
    estereo2mono (stereoFile 8000 [((-1 : Int), (-2 : Int))]) 2 = .ok (monoFile 8000 [-2]) ∧
    Int.tdiv ((-1) + (-2)) 2 = -1 ∧
    estereo2mono (stereoFile 8000 [((-1 : Int), (-2 : Int))]) 2 ≠
      .ok (monoFile 8000 [Int.tdiv ((-1) + (-2)) 2]) := by
  refine ⟨rfl, rfl, fun h => ?_⟩
  exact absurd (Except.ok.inj h) (by decide)

/-- C3 (amended): the sum-average mode outputs `(left + right) // 2` and the
difference-average mode `(left - right) // 2` using floor division
(`Int.fdiv`, rounding toward negative infinity), so a negative odd dividend
rounds down, not toward zero. -/
theorem estereo2mono_promedios_floor (frec : Nat) (ps : List (Int × Int))
    (hr : frec < 4294967296) (ht : 4 * ps.length < 4294967296)
    (hx : ∀ p ∈ ps, (-32768 ≤ p.1 ∧ p.1 ≤ 32767) ∧ (-32768 ≤ p.2 ∧ p.2 ≤ 32767)) :
    estereo2mono (stereoFile frec ps) 2 =
      .ok (monoFile frec (ps.map fun (p : Int × Int) => (p.1 + p.2).fdiv 2)) ∧
    estereo2mono (stereoFile frec ps) 3 =
      .ok (monoFile frec (ps.map fun (p : Int × Int) => (p.1 - p.2).fdiv 2)) := by
  constructor
  · apply estereo2mono_eval frec ps 2 _ hr ht hx rfl
    intro y hy
    simp only [List.mem_map] at hy
    obtain ⟨p, hp, rfl⟩ := hy
    have := hx p hp
    exact fdiv_two_range' _ (by omega)
  · apply estereo2mono_eval frec ps 3 _ hr ht hx rfl
    intro y hy
    simp only [List.mem_map] at hy
    obtain ⟨p, hp, rfl⟩ := hy
    have := hx p hp
    exact fdiv_two_range' _ (by omega)

/-- Witness for the amended C3 on the frames [(4, 2), (-4, -2), (-1, -2)]:
modes 2 and 3 give [3, -3, -2] and [1, -1, 1]. -/
theorem estereo2mono_promedios_floor_witness :
    estereo2mono (stereoFile 8000 [(4, 2), (-4, -2), ((-1 : Int), (-2 : Int))]) 2 =
      .ok (monoFile 8000 ([(4, 2), (-4, -2), ((-1 : Int), (-2 : Int))].map
        fun (p : Int × Int) => (p.1 + p.2).fdiv 2)) ∧
    estereo2mono (stereoFile 8000 [(4, 2), (-4, -2), ((-1 : Int), (-2 : Int))]) 3 =
      .ok (monoFile 8000 ([(4, 2), (-4, -2), ((-1 : Int), (-2 : Int))].map
        fun (p : Int × Int) => (p.1 - p.2).fdiv 2)) :=
  estereo2mono_promedios_floor 8000 [(4, 2), (-4, -2), (-1, -2)]
    (by norm_num) (by norm_num) (by decide)

/-- C6: an input parsing with channel count 1 makes `estereo2mono` fail with
the channel-mismatch error for every mode, and every mode value outside
{0 = left, 1 = right, 2 = sum-average, 3 = difference-average} — such as 9 —
fails with the invalid-mode error on a valid stereo input. -/
theorem estereo2mono_errores_canal :
    (∀ (f : List Nat) (info : InfoWav) (canal : Nat),
        leer_cabecera f = .ok info → info.canales = some 1 →
        estereo2mono f canal = .error "El archivo no es estéreo") ∧
    (∀ (frec : Nat) (ps : List (Int × Int)) (canal : Nat),
        frec < 4294967296 → 4 * ps.length < 4294967296 →
        (∀ p ∈ ps, (-32768 ≤ p.1 ∧ p.1 ≤ 32767) ∧ (-32768 ≤ p.2 ∧ p.2 ≤ 32767)) →
        canal ≠ 0 → canal ≠ 1 → canal ≠ 2 → canal ≠ 3 →
        estereo2mono (stereoFile frec ps) canal = .error "Canal no válido") := by
  constructor
  · intro f info canal hparse hcan
    simp only [estereo2mono, hparse]
    simp [hcan]
  · intro frec ps canal hr ht hx h0 h1 h2 h3
    obtain ⟨n, rfl⟩ : ∃ n, canal = n + 4 := ⟨canal - 4, by omega⟩
    exact estereo2mono_eval_error frec ps (n + 4) _ hr ht hx rfl

/-- Witness for C6: a mono file rejected by `estereo2mono`, and mode 9
rejected on a stereo file. -/
theorem estereo2mono_errores_canal_witness :
    estereo2mono (monoFile 8000 [5]) 0 = .error "El archivo no es estéreo" ∧
    estereo2mono (stereoFile 8000 [(1, 2)]) 9 = .error "Canal no válido" := by
  constructor
  · exact estereo2mono_errores_canal.1 (monoFile 8000 [5])
      ⟨some 44, some 2, some 1, some 1, some 8000, some 16⟩ 0 rfl rfl
  · exact estereo2mono_errores_canal.2 8000 [(1, 2)] 9 (by norm_num) (by norm_num)
      (by decide) (by decide) (by decide) (by decide) (by decide)

/-- C8: on the single frame (30000, 30000) the sum 60000 wraps: the packed
word has high 16 bits 60000 = 0xEA60 and low 16 bits 0, i.e. the word is
0xEA600000 = 3932160000, and `codEstereo` emits exactly its little-endian
bytes; the overflow wraps instead of saturating or failing. -/
theorem codEstereo_desbordamiento_envuelve :
    codPair 30000 30000 / 65536 % 65536 = 60000 ∧
    codPair 30000 30000 % 65536 = 0 ∧
    codPair 30000 30000 = 3932160000 ∧
    codEstereo (stereoFile 8000 [(30000, 30000)]) =
      .ok (crear_cabecera 1 8000 32 4 ++ [0, 0, 96, 234]) :=
  ⟨rfl, rfl, rfl, rfl⟩

/-- C10: for every 32-bit word the two reconstructed samples of `decEstereo`
lie within the signed 16-bit range, so the final 16-bit re-packing of the
reconstruction can never fail: it always succeeds on any word list. -/
theorem decEstereo_reconstruccion_en_rango :
    (∀ cod : Nat,
      (-32768 ≤ (sInt16 (cod / 65536 % 65536) + sInt16 (cod % 65536)).fdiv 2 ∧
        (sInt16 (cod / 65536 % 65536) + sInt16 (cod % 65536)).fdiv 2 ≤ 32767) ∧
      (-32768 ≤ (sInt16 (cod / 65536 % 65536) - sInt16 (cod % 65536)).fdiv 2 ∧
        (sInt16 (cod / 65536 % 65536) - sInt16 (cod % 65536)).fdiv 2 ≤ 32767)) ∧
    (∀ ws : List Nat,
      packHn (decodePairs ws).length (decodePairs ws) = .ok (bytesH (decodePairs ws))) := by
  constructor
  · intro cod
    have hs := sInt16_bounds (cod / 65536 % 65536)
    have hd := sInt16_bounds (cod % 65536)
    exact ⟨fdiv_two_range' _ (by omega), fdiv_two_range' _ (by omega)⟩
  · intro ws
    exact packHn_ok _ (decodePairs_range ws)

/-- C1: for every stereo frame list whose per-frame sum and difference fit
the signed 16-bit range, `codEstereo` followed by `decEstereo` reproduces the
original file, i.e. the original interleaved 16-bit samples, exactly. -/
theorem codEstereo_decEstereo_roundtrip (frec : Nat) (ps : List (Int × Int))
    (hr : frec < 4294967296) (ht : 4 * ps.length < 4294967296)
    (hsum : ∀ p ∈ ps, (-32768 ≤ p.1 + p.2 ∧ p.1 + p.2 ≤ 32767) ∧
      (-32768 ≤ p.1 - p.2 ∧ p.1 - p.2 ≤ 32767)) :
    ∃ cod, codEstereo (stereoFile frec ps) = .ok cod ∧
      decEstereo cod = .ok (stereoFile frec ps) := by
  have hx : ∀ p ∈ ps, (-32768 ≤ p.1 ∧ p.1 ≤ 32767) ∧ (-32768 ≤ p.2 ∧ p.2 ≤ 32767) := by
    intro p hp
    have := hsum p hp
    omega
  refine ⟨_, codEstereo_eval frec ps hr ht hx, ?_⟩
  have hlenmap : (ps.map fun (p : Int × Int) => codPair p.1 p.2).length = ps.length :=
    List.length_map _ _
  rw [show (4 : Nat) * ps.length = 4 * (ps.map fun (p : Int × Int) => codPair p.1 p.2).length
    from by rw [hlenmap]]
  rw [decEstereo_eval frec _ hr (by rw [hlenmap]; exact ht)
    (fun w hw => by
      simp only [List.mem_map] at hw
      obtain ⟨p, hp, rfl⟩ := hw
      exact codPair_lt p.1 p.2)]
  rw [decodePairs_codPair ps hsum, flattenPairs_length,
    show (2 : Nat) * (2 * ps.length) = 4 * ps.length from by omega]
  rfl

/-- Witness for C1 on two frames within the safe amplitude range. -/
theorem codEstereo_decEstereo_roundtrip_witness :
    ∃ cod, codEstereo (stereoFile 8000 [(100, -3), (-16000, 16000)]) = .ok cod ∧
      decEstereo cod = .ok (stereoFile 8000 [(100, -3), (-16000, 16000)]) :=
  codEstereo_decEstereo_roundtrip 8000 [(100, -3), (-16000, 16000)]
    (by norm_num) (by norm_num) (by decide)

/-- `mono2estereo` on two canonical mono files when the left input is no
longer than the right: `zip` truncates to the left length and the packed
count matches, so the interleaved stereo file is produced. -/
theorem mono2estereo_eval (frec : Nat) (L R : List Int)
    (hr : frec < 4294967296) (htL : 2 * L.length < 4294967296) (htR : 2 * R.length < 4294967296)
    (hxL : ∀ x ∈ L, -32768 ≤ x ∧ x ≤ 32767) (hxR : ∀ x ∈ R, -32768 ≤ x ∧ x ≤ 32767)
    (hle : L.length ≤ R.length) :
    mono2estereo (monoFile frec L) (monoFile frec R) = .ok (stereoFile frec (L.zip R)) := by
  have hunpL : unpackH (2 * L.length / 2) (bytesH L) = .ok L := by
    rw [show 2 * L.length / 2 = L.length from by omega]
    exact unpackH_bytesH L hxL
  have hunpR : unpackH (2 * R.length / 2) (bytesH R) = .ok R := by
    rw [show 2 * R.length / 2 = R.length from by omega]
    exact unpackH_bytesH R hxR
  have hflat_range : ∀ x ∈ flattenPairs (L.zip R), -32768 ≤ x ∧ x ≤ 32767 :=
    flattenPairs_range _ (fun p hp => by
      obtain ⟨a, b⟩ := p
      have hz := List.of_mem_zip hp
      exact ⟨hxL _ hz.1, hxR _ hz.2⟩)
  have hlen : (flattenPairs (L.zip R)).length = 2 * L.length := by
    rw [flattenPairs_length, List.length_zip]
    omega
  have hpk : packHn (2 * L.length) (flattenPairs (L.zip R)) =
      .ok (bytesH (flattenPairs (L.zip R))) := by
    have h := packHn_ok _ hflat_range
    rwa [hlen] at h
  simp only [mono2estereo, leer_cabecera_monoFile frec L hr htL,
    leer_cabecera_monoFile frec R hr htR, readBytes_monoFile, hunpL, hunpR, hpk,
    bytesH_length, hlen]
  rw [show (2 : Nat) * (2 * L.length) = 4 * (L.zip R).length from by rw [List.length_zip]; omega]
  rfl

/-- `mono2estereo` when the right input is strictly shorter: `zip` truncates
below the packed item count, so `struct.pack` rejects the argument list. -/
theorem mono2estereo_short (frec : Nat) (L R : List Int)
    (hr : frec < 4294967296) (htL : 2 * L.length < 4294967296) (htR : 2 * R.length < 4294967296)
    (hxL : ∀ x ∈ L, -32768 ≤ x ∧ x ≤ 32767) (hxR : ∀ x ∈ R, -32768 ≤ x ∧ x ≤ 32767)
    (hlt : R.length < L.length) :
    mono2estereo (monoFile frec L) (monoFile frec R) =
      .error "struct.error: pack expected a different number of items" := by
  have hunpL : unpackH (2 * L.length / 2) (bytesH L) = .ok L := by
    rw [show 2 * L.length / 2 = L.length from by omega]
    exact unpackH_bytesH L hxL
  have hunpR : unpackH (2 * R.length / 2) (bytesH R) = .ok R := by
    rw [show 2 * R.length / 2 = R.length from by omega]
    exact unpackH_bytesH R hxR
  have hpk : packHn (2 * L.length) (flattenPairs (L.zip R)) =
      .error "struct.error: pack expected a different number of items" := by
    simp only [packHn]
    rw [if_pos (by rw [flattenPairs_length, List.length_zip]; omega)]
  simp only [mono2estereo, leer_cabecera_monoFile frec L hr htL,
    leer_cabecera_monoFile frec R hr htR, readBytes_monoFile, hunpL, hunpR, hpk]
  norm_num

/-- C7: merging two equal-length mono sample lists and then extracting the
left (resp. right) channel recovers the first (resp. second) list exactly. -/
theorem mono2estereo_estereo2mono_roundtrip (frec : Nat) (L R : List Int)
    (hr : frec < 4294967296) (ht4 : 4 * L.length < 4294967296)
    (hxL : ∀ x ∈ L, -32768 ≤ x ∧ x ≤ 32767) (hxR : ∀ x ∈ R, -32768 ≤ x ∧ x ≤ 32767)
    (hlen : L.length = R.length) :
    ∃ est, mono2estereo (monoFile frec L) (monoFile frec R) = .ok est ∧
      estereo2mono est 0 = .ok (monoFile frec L) ∧
      estereo2mono est 1 = .ok (monoFile frec R) := by
  have hzlen : (L.zip R).length = L.length := by
    rw [List.length_zip]; omega
  have hzx : ∀ p ∈ L.zip R, (-32768 ≤ p.1 ∧ p.1 ≤ 32767) ∧ (-32768 ≤ p.2 ∧ p.2 ≤ 32767) := by
    intro p hp
    obtain ⟨a, b⟩ := p
    have hz := List.of_mem_zip hp
    exact ⟨hxL _ hz.1, hxR _ hz.2⟩
  refine ⟨stereoFile frec (L.zip R),
    mono2estereo_eval frec L R hr (by omega) (by omega) hxL hxR hlen.le, ?_, ?_⟩
  · apply estereo2mono_eval frec (L.zip R) 0 L hr (by omega) hzx
      (congrArg Except.ok (List.map_fst_zip L R hlen.le)) hxL
  · have h2 := estereo2mono_eval frec (L.zip R) 1 R hr (by omega) hzx
      (congrArg Except.ok (List.map_snd_zip L R hlen.ge)) hxR
    exact h2

/-- Witness for C7 on two concrete three-sample channels. -/
theorem mono2estereo_estereo2mono_roundtrip_witness :
    ∃ est, mono2estereo (monoFile 8000 [1, -2, 3]) (monoFile 8000 [-7, 8, -9]) = .ok est ∧
      estereo2mono est 0 = .ok (monoFile 8000 [1, -2, 3]) ∧
      estereo2mono est 1 = .ok (monoFile 8000 [-7, 8, -9]) :=
  mono2estereo_estereo2mono_roundtrip 8000 [1, -2, 3] [-7, 8, -9]
    (by norm_num) (by norm_num) (by decide) (by decide) rfl

/-- C9: with unequal mono inputs the behavior is asymmetric: a longer right
input is silently truncated to the left length and the merge succeeds with
exactly `len(left)` frames, while a shorter right input makes the pack step
fail with an untyped `struct.error` before any output is produced. -/
theorem mono2estereo_longitudes_desiguales (frec : Nat) (L R : List Int)
    (hr : frec < 4294967296) (htL : 2 * L.length < 4294967296) (htR : 2 * R.length < 4294967296)
    (hxL : ∀ x ∈ L, -32768 ≤ x ∧ x ≤ 32767) (hxR : ∀ x ∈ R, -32768 ≤ x ∧ x ≤ 32767) :
    (L.length < R.length →
      mono2estereo (monoFile frec L) (monoFile frec R) = .ok (stereoFile frec (L.zip R)) ∧
      (L.zip R).length = L.length) ∧
    (R.length < L.length →
      mono2estereo (monoFile frec L) (monoFile frec R) =
        .error "struct.error: pack expected a different number of items") := by
  constructor
  · intro hlt
    refine ⟨mono2estereo_eval frec L R hr htL htR hxL hxR (by omega), ?_⟩
    rw [List.length_zip]
    omega
  · intro hlt
    exact mono2estereo_short frec L R hr htL htR hxL hxR hlt

/-- Witness for C9: right longer by one is truncated; right shorter by one
raises the pack error. -/
theorem mono2estereo_longitudes_desiguales_witness :
    (mono2estereo (monoFile 8000 [1, 2]) (monoFile 8000 [5, 6, 7]) =
        .ok (stereoFile 8000 ([1, 2].zip [5, 6, 7])) ∧
      (([1, 2] : List Int).zip [5, 6, 7]).length = ([1, 2] : List Int).length) ∧
    mono2estereo (monoFile 8000 [1, 2, 3]) (monoFile 8000 [5, 6]) =
      .error "struct.error: pack expected a different number of items" := by
  constructor
  · exact (mono2estereo_longitudes_desiguales 8000 [1, 2] [5, 6, 7]
      (by norm_num) (by norm_num) (by norm_num) (by decide) (by decide)).1 (by norm_num)
  · exact (mono2estereo_longitudes_desiguales 8000 [1, 2, 3] [5, 6]
      (by norm_num) (by norm_num) (by norm_num) (by decide) (by decide)).2 (by norm_num)

/-- C4: `leer_cabecera` fails with the invalid-WAVE error whenever the
4-byte tag at offset 0 or the 4-byte tag at offsets 8-11 is altered, and,
with correct markers, fails with the incompatible-format error whenever the
sub-chunk scan yields a format code other than 1 or a bit depth outside
{16, 32}. -/
theorem leer_cabecera_errores_formato :
    (∀ f : List Nat, 12 ≤ f.length →
        (f.take 4 ≠ [82, 73, 70, 70] ∨ (f.drop 8).take 4 ≠ [87, 65, 86, 69]) →
        leer_cabecera f = .error "El archivo no es un WAVE válido") ∧
    (∀ (f : List Nat) (info : InfoWav), 12 ≤ f.length →
        f.take 4 = [82, 73, 70, 70] → (f.drop 8).take 4 = [87, 65, 86, 69] →
        leerChunks f 12 infoInicial = .ok info →
        (info.formato ≠ some 1 ∨ (info.bits_muestra ≠ some 16 ∧ info.bits_muestra ≠ some 32)) →
        leer_cabecera f = .error "Formato de audio no compatible") := by
  have e1 : ∀ f : List Nat, readBytes f 0 12 = f.take 12 := fun f => by simp [readBytes]
  have e2 : ∀ f : List Nat, (f.take 12).take 4 = f.take 4 := fun f => by
    rw [List.take_take, show (4 : Nat) ⊓ 12 = 4 from rfl]
  have e3 : ∀ f : List Nat, ((f.take 12).drop 8).take 4 = (f.drop 8).take 4 := fun f => by
    rw [List.drop_take, List.take_take, show (4 : Nat) ⊓ (12 - 8) = 4 from rfl]
  constructor
  · intro f hlen hbad
    simp only [leer_cabecera, e1]
    rw [if_neg (by rw [List.length_take]; omega)]
    rw [if_pos (by rw [e2, e3]; exact hbad)]
  · intro f info hlen hriff hwave hchunks hbad
    simp only [leer_cabecera, e1, hchunks]
    rw [if_neg (by rw [List.length_take]; omega)]
    rw [if_neg (by rw [e2, e3]; simp [hriff, hwave])]
    rw [if_pos hbad]

/-- Witness for C4: a stream with a corrupted leading tag, and a header
declaring 8 bits per sample. -/
theorem leer_cabecera_errores_formato_witness :
    leer_cabecera [0, 1, 2, 3, 4, 5, 6, 7, 87, 65, 86, 69] =
      .error "El archivo no es un WAVE válido" ∧
    leer_cabecera (crear_cabecera 2 8000 8 0) = .error "Formato de audio no compatible" := by
  constructor
  · exact leer_cabecera_errores_formato.1 _ (by norm_num) (Or.inl (by decide))
  · exact leer_cabecera_errores_formato.2 (crear_cabecera 2 8000 8 0)
      ⟨some 44, some 0, some 1, some 2, some 8000, some 8⟩
      (by decide) (by decide) (by decide) rfl (by decide)

/-- C5: inserting one unknown sub-chunk (arbitrary 4-byte tag, declared size
equal to its body length) between the format and data sub-chunks makes the
parser skip exactly the declared size: the same format fields and payload
length are returned and the payload offset points at the data sub-chunk
body. -/
theorem leer_cabecera_salta_subchunk (c r b t : Nat) (tag body payload : List Nat)
    (htag : tag.length = 4)
    (h1 : tag ≠ [102, 109, 116, 32]) (h2 : tag ≠ [100, 97, 116, 97])
    (hc : c < 65536) (hr : r < 4294967296) (hb : b = 16 ∨ b = 32)
    (ht : t < 4294967296) (hbody : body.length < 4294967296)
    (hp : payload.length = t) :
    leer_cabecera (fileConChunkExtra c r b t tag body payload) =
      .ok ⟨some (52 + body.length), some t, some 1, some c, some r, some b⟩ ∧
    readBytes (fileConChunkExtra c r b t tag body payload) (52 + body.length) t = payload ∧
    fileConChunkExtra c r b t tag body payload =
      (crear_cabecera c r b t).take 36 ++ (tag ++ u32le body.length ++ body) ++
        ((crear_cabecera c r b t).drop 36 ++ payload) := by
  have hlenF : (fileConChunkExtra c r b t tag body payload).length = 52 + body.length + t := by
    simp [fileConChunkExtra, u16le, u32le, htag, hp]
    omega
  have s0 : readBytes (fileConChunkExtra c r b t tag body payload) 0 12 =
      [82, 73, 70, 70, (36 + t) % 256, (36 + t) / 256 % 256, (36 + t) / 65536 % 256,
       (36 + t) / 16777216 % 256, 87, 65, 86, 69] := by
    simp [fileConChunkExtra, u16le, u32le, readBytes]
  have s1 : readBytes (fileConChunkExtra c r b t tag body payload) 12 8 =
      [102, 109, 116, 32, 16, 0, 0, 0] := by
    simp [fileConChunkExtra, u16le, u32le, readBytes]
  have s2 : readBytes (fileConChunkExtra c r b t tag body payload) (12 + 8) 16 =
      [1, 0, c % 256, c / 256 % 256, r % 256, r / 256 % 256, r / 65536 % 256, r / 16777216 % 256,
       r * c * b / 8 % 256, r * c * b / 8 / 256 % 256, r * c * b / 8 / 65536 % 256,
       r * c * b / 8 / 16777216 % 256, c * b / 8 % 256, c * b / 8 / 256 % 256,
       b % 256, b / 256 % 256] := by
    simp [fileConChunkExtra, u16le, u32le, readBytes]
  have hdecU : fileConChunkExtra c r b t tag body payload =
      (([82, 73, 70, 70] ++ u32le (36 + t) ++ [87, 65, 86, 69]) ++
       ([102, 109, 116, 32] ++ u32le 16 ++ u16le 1 ++ u16le c ++ u32le r ++
         u32le (r * c * b / 8) ++ u16le (c * b / 8) ++ u16le b)) ++
      ((tag ++ (u32le body.length ++ (body ++
        (([100, 97, 116, 97] ++ u32le t) ++ payload))))) := by
    simp [fileConChunkExtra]
  have hlen36 : (([82, 73, 70, 70] ++ u32le (36 + t) ++ [87, 65, 86, 69]) ++
      ([102, 109, 116, 32] ++ u32le 16 ++ u16le 1 ++ u16le c ++ u32le r ++
        u32le (r * c * b / 8) ++ u16le (c * b / 8) ++ u16le b)).length = 36 := by
    simp [u16le, u32le]
  have s4 : readBytes (fileConChunkExtra c r b t tag body payload) 36 8 =
      tag ++ u32le body.length := by
    conv_lhs => rw [hdecU]
    have h := readBytes_at (([82, 73, 70, 70] ++ u32le (36 + t) ++ [87, 65, 86, 69]) ++
      ([102, 109, 116, 32] ++ u32le 16 ++ u16le 1 ++ u16le c ++ u32le r ++
        u32le (r * c * b / 8) ++ u16le (c * b / 8) ++ u16le b))
      ((tag ++ (u32le body.length ++ (body ++
        (([100, 97, 116, 97] ++ u32le t) ++ payload))))) 8
    rw [hlen36] at h
    rw [h, List.take_append_eq_append_take, List.take_of_length_le (by omega), htag]
    have h4 : (u32le body.length ++ (body ++ (([100, 97, 116, 97] ++ u32le t) ++
        payload))).take (8 - 4) = u32le body.length :=
      List.take_left' (by simp [u32le])
    rw [h4]
  have hdecD : fileConChunkExtra c r b t tag body payload =
      ((([82, 73, 70, 70] ++ u32le (36 + t) ++ [87, 65, 86, 69]) ++
        ([102, 109, 116, 32] ++ u32le 16 ++ u16le 1 ++ u16le c ++ u32le r ++
          u32le (r * c * b / 8) ++ u16le (c * b / 8) ++ u16le b)) ++
       (tag ++ u32le body.length ++ body)) ++
      (([100, 97, 116, 97] ++ u32le t) ++ payload) := by
    simp [fileConChunkExtra]
  have hlen44 : ((([82, 73, 70, 70] ++ u32le (36 + t) ++ [87, 65, 86, 69]) ++
      ([102, 109, 116, 32] ++ u32le 16 ++ u16le 1 ++ u16le c ++ u32le r ++
        u32le (r * c * b / 8) ++ u16le (c * b / 8) ++ u16le b)) ++
      (tag ++ u32le body.length ++ body)).length = 44 + body.length := by
    simp [u16le, u32le, htag]
    omega
  have s5 : readBytes (fileConChunkExtra c r b t tag body payload) (44 + body.length) 8 =
      [100, 97, 116, 97, t % 256, t / 256 % 256, t / 65536 % 256, t / 16777216 % 256] := by
    conv_lhs => rw [hdecD]
    have h := readBytes_at ((([82, 73, 70, 70] ++ u32le (36 + t) ++ [87, 65, 86, 69]) ++
        ([102, 109, 116, 32] ++ u32le 16 ++ u16le 1 ++ u16le c ++ u32le r ++
          u32le (r * c * b / 8) ++ u16le (c * b / 8) ++ u16le b)) ++
        (tag ++ u32le body.length ++ body))
      (([100, 97, 116, 97] ++ u32le t) ++ payload) 8
    rw [hlen44] at h
    rw [h, List.take_append_eq_append_take, List.take_of_length_le (by simp [u32le])]
    simp [u32le]
  have hchunks : leerChunks (fileConChunkExtra c r b t tag body payload) 12 infoInicial =
      .ok ⟨some (52 + body.length), some t, some 1, some c, some r, some b⟩ := by
    rw [leerChunks_fmt _ 12 _ (by omega) (by simp [s1])
      (by simp only [s1]; simp only [List.drop_succ_cons, List.drop_zero]
          simp only [leU32]; norm_num [s2])]
    have e20 : leU32 ((readBytes (fileConChunkExtra c r b t tag body payload) 12 8).drop 4) =
        16 := by
      simp [s1, leU32]
    rw [e20, s2]
    have hc' : c % 256 + 256 * (c / 256 % 256) = c := by omega
    have hr' : r % 256 + 256 * (r / 256 % 256) + 65536 * (r / 65536 % 256) +
        16777216 * (r / 16777216 % 256) = r := by omega
    have hb' : b % 256 + 256 * (b / 256 % 256) = b := by rcases hb with h | h <;> omega
    simp only [List.take_succ_cons, List.take_zero, List.drop_succ_cons, List.drop_zero,
      List.length_cons, List.length_nil, leU16, leU32]
    rw [hc', hr', hb']
    norm_num
    rw [leerChunks_skip _ 36 _ (by omega)
      (by rw [s4, List.take_append_eq_append_take, List.take_of_length_le (by omega), htag]
          simpa using h1)
      (by rw [s4, List.take_append_eq_append_take, List.take_of_length_le (by omega), htag]
          simpa using h2)]
    have e36u : leU32 ((readBytes (fileConChunkExtra c r b t tag body payload) 36 8).drop 4) =
        body.length := by
      rw [s4, List.drop_left' htag]
      simp only [u32le, leU32]
      omega
    rw [e36u]
    rw [show 36 + 8 + body.length = 44 + body.length from by omega]
    rw [leerChunks_data _ (44 + body.length) _ (by omega) (by simp [s5])]
    have e44 : leU32 ((readBytes (fileConChunkExtra c r b t tag body payload)
        (44 + body.length) 8).drop 4) = t := by
      simp only [s5, List.drop_succ_cons, List.drop_zero, leU32]
      omega
    rw [e44]
    rw [leerChunks_break _ _ _ (by omega)]
    rw [show 44 + body.length + 8 = 52 + body.length from by omega]
  refine ⟨?_, ?_, ?_⟩
  · simp only [leer_cabecera, s0, hchunks]
    norm_num
    rcases hb with h | h <;> simp [h]
  · conv_lhs => rw [hdecD]
    have hlen52 : (((([82, 73, 70, 70] ++ u32le (36 + t) ++ [87, 65, 86, 69]) ++
        ([102, 109, 116, 32] ++ u32le 16 ++ u16le 1 ++ u16le c ++ u32le r ++
          u32le (r * c * b / 8) ++ u16le (c * b / 8) ++ u16le b)) ++
        (tag ++ u32le body.length ++ body)) ++ ([100, 97, 116, 97] ++ u32le t)).length =
        52 + body.length := by
      simp [u16le, u32le, htag]
      omega
    rw [show ((([82, 73, 70, 70] ++ u32le (36 + t) ++ [87, 65, 86, 69]) ++
        ([102, 109, 116, 32] ++ u32le 16 ++ u16le 1 ++ u16le c ++ u32le r ++
          u32le (r * c * b / 8) ++ u16le (c * b / 8) ++ u16le b)) ++
       (tag ++ u32le body.length ++ body)) ++ (([100, 97, 116, 97] ++ u32le t) ++ payload) =
      (((([82, 73, 70, 70] ++ u32le (36 + t) ++ [87, 65, 86, 69]) ++
        ([102, 109, 116, 32] ++ u32le 16 ++ u16le 1 ++ u16le c ++ u32le r ++
          u32le (r * c * b / 8) ++ u16le (c * b / 8) ++ u16le b)) ++
        (tag ++ u32le body.length ++ body)) ++ ([100, 97, 116, 97] ++ u32le t)) ++ payload
      from by simp]
    have h := readBytes_at (((([82, 73, 70, 70] ++ u32le (36 + t) ++ [87, 65, 86, 69]) ++
        ([102, 109, 116, 32] ++ u32le 16 ++ u16le 1 ++ u16le c ++ u32le r ++
          u32le (r * c * b / 8) ++ u16le (c * b / 8) ++ u16le b)) ++
        (tag ++ u32le body.length ++ body)) ++ ([100, 97, 116, 97] ++ u32le t)) payload t
    rw [hlen52] at h
    rw [h, hp.symm, List.take_length]
  · simp [fileConChunkExtra, crear_cabecera, u16le, u32le]

/-- Witness for C5: a 3-byte unknown chunk tagged LIST inserted before the
data chunk of a 2-channel 16-bit header with a 2-byte payload. -/
theorem leer_cabecera_salta_subchunk_witness :
    leer_cabecera (fileConChunkExtra 2 8000 16 2 [76, 73, 83, 84] [7, 8, 9] [1, 2]) =
      .ok ⟨some 55, some 2, some 1, some 2, some 8000, some 16⟩ ∧
    readBytes (fileConChunkExtra 2 8000 16 2 [76, 73, 83, 84] [7, 8, 9] [1, 2]) 55 2 =
      [1, 2] ∧
    fileConChunkExtra 2 8000 16 2 [76, 73, 83, 84] [7, 8, 9] [1, 2] =
      (crear_cabecera 2 8000 16 2).take 36 ++
        ([76, 73, 83, 84] ++ u32le ([7, 8, 9] : List Nat).length ++ [7, 8, 9]) ++
        ((crear_cabecera 2 8000 16 2).drop 36 ++ [1, 2]) := by
  have h := leer_cabecera_salta_subchunk 2 8000 16 2 [76, 73, 83, 84] [7, 8, 9] [1, 2]
    (by decide) (by decide) (by decide) (by norm_num) (by norm_num) (Or.inl rfl)
    (by norm_num) (by norm_num) (by decide)
  simpa using h

end Estereo
